import Mathlib

/-!
Verification development for the Duka FastAPI inventory backend
(files main.py, models.py, jsonmap.py).

The persisted state (tables users, products, sales, purchases from
models.py) is embedded as a structure of lists together with the
auto-increment counters of the primary keys.  Each HTTP handler from
main.py becomes a function from the state (plus the parsed request
body and, where the handler assigns a timestamp, the current time) to
a result paired with the post state; a handler that can fail returns
an Except value.  Python ints are Int where a request field may be
negative (quantities) and Nat for ids and times; prices (Python
floats carrying exact decimals here) are Rat.
-/

/-- Error outcomes an endpoint can surface, by HTTP class:
conflict and validationError are 400, unauthorized 401, notFound 404,
integrityError is a persistence-layer constraint violation escaping as 500,
typeError a Python TypeError (also a 500 through the framework). -/
inductive ApiError where
  | conflict
  | unauthorized
  | notFound
  | validationError
  | integrityError
  | typeError
  deriving Repr, DecidableEq

/-- Row of table fastapi_usersp (models.py, class User). fullname is
nullable in the table but always provided by the register handler. -/
structure User where
  id : Nat
  email : String
  fullname : String
  password : String
  deriving Repr, DecidableEq

/-- Row of table products (models.py, class Product). -/
structure Product where
  id : Nat
  name : String
  buying_price : Rat
  selling_price : Rat
  deriving Repr, DecidableEq

/-- Row of table sales (models.py, class Sale): product_id is a foreign
key into products, created_at defaults to the insert time. -/
structure Sale where
  id : Nat
  product_id : Nat
  quantity : Int
  created_at : Nat
  deriving Repr, DecidableEq

/-- Row of table purchases (models.py, class Purchase), same shape as Sale. -/
structure Purchase where
  id : Nat
  product_id : Nat
  quantity : Int
  created_at : Nat
  deriving Repr, DecidableEq

/-- The persisted database state: the four tables and the next value of
each auto-increment primary key. -/
structure DB where
  users : List User
  products : List Product
  sales : List Sale
  purchases : List Purchase
  nextUserId : Nat
  nextProductId : Nat
  nextSaleId : Nat
  nextPurchaseId : Nat
  deriving Repr, DecidableEq

/-- Request body of POST /register (jsonmap.py, UserPostRegister). -/
structure UserPostRegister where
  email : String
  fullname : String
  password : String
  deriving Repr, DecidableEq

/-- Request body of POST /products (jsonmap.py, ProductPostMap): plain
typed fields, no constraint on the sign or range of either price. -/
structure ProductPostMap where
  name : String
  buying_price : Rat
  selling_price : Rat
  deriving Repr, DecidableEq

/-- Request body of POST /sales and POST /purchases (jsonmap.py,
SalePostMap / PurchasePostMap): plain typed fields, no positivity
constraint on quantity and no existence constraint on product_id. -/
structure SalePostMap where
  product_id : Nat
  quantity : Int
  deriving Repr, DecidableEq

/-- Response body of /register and /login (jsonmap.py, Token). -/
structure Token where
  access_token : String
  token_type : String
  deriving Repr, DecidableEq

/-- Row of the GET /dashboard/sales-per-product response
(jsonmap.py, SalesPerProduct). -/
structure SalesPerProduct where
  product_id : Nat
  product_name : String
  total_quantity_sold : Int
  total_sales_amount : Rat
  deriving Repr, DecidableEq

/-- Row of the GET /dashboard/stock-per-product response
(jsonmap.py, StockPerProduct). -/
structure StockPerProduct where
  product_id : Nat
  product_name : String
  remaining_stock : Int
  deriving Repr, DecidableEq

/-- POST /register (main.py, register_user): looks the email up with
scalar_one_or_none; an existing user raises 400 before anything is
written; otherwise the user is inserted with the hashed password and a
token is issued.  The password hasher and token maker live in the
myjwt module and are passed in as functions; the handler logic does
not depend on them. -/
def register_user (hashPw : String → String) (mkToken : String → String)
    (st : DB) (req : UserPostRegister) : Except ApiError Token × DB :=
  match st.users.find? (fun u => u.email == req.email) with
  | some _ => (Except.error ApiError.conflict, st)
  | none =>
    let u : User :=
      { id := st.nextUserId, email := req.email, fullname := req.fullname,
        password := hashPw req.password }
    (Except.ok { access_token := mkToken req.email, token_type := "bearer" },
     { st with users := st.users ++ [u], nextUserId := st.nextUserId + 1 })

/-- GET /products (main.py, get_products): a plain select over products. -/
def get_products (st : DB) : List Product × DB :=
  (st.products, st)

/-- POST /products (main.py, create_product): constructs the Product
straight from the request fields and commits it, with no check of any
kind on the values. -/
def create_product (st : DB) (req : ProductPostMap) : Except ApiError Product × DB :=
  let p : Product :=
    { id := st.nextProductId, name := req.name,
      buying_price := req.buying_price, selling_price := req.selling_price }
  (Except.ok p,
   { st with products := st.products ++ [p], nextProductId := st.nextProductId + 1 })

/-- GET /sales (main.py, get_sales): a select over sales (the
selectinload of the product only eagerly loads the relationship). -/
def get_sales (st : DB) : List Sale × DB :=
  (st.sales, st)

/-- POST /sales (main.py, create_sale): builds the Sale from the request
fields, created_at defaulting to the current time, and commits it.  The
handler performs no validation; the only check that can fail is the
foreign-key constraint of sales.product_id at commit, which surfaces as
an IntegrityError (500).  On that failure nothing is persisted. -/
def create_sale (st : DB) (req : SalePostMap) (now : Nat) : Except ApiError Sale × DB :=
  let sale : Sale :=
    { id := st.nextSaleId, product_id := req.product_id,
      quantity := req.quantity, created_at := now }
  if st.products.any (fun p => p.id == req.product_id) then
    (Except.ok sale, { st with sales := st.sales ++ [sale], nextSaleId := st.nextSaleId + 1 })
  else
    (Except.error ApiError.integrityError, st)

/-- GET /purchases (main.py, get_purchases): a select over purchases. -/
def get_purchases (st : DB) : List Purchase × DB :=
  (st.purchases, st)

/-- POST /purchases (main.py, create_purchase): same contract as
create_sale with purchase semantics. -/
def create_purchase (st : DB) (req : SalePostMap) (now : Nat) : Except ApiError Purchase × DB :=
  let pu : Purchase :=
    { id := st.nextPurchaseId, product_id := req.product_id,
      quantity := req.quantity, created_at := now }
  if st.products.any (fun p => p.id == req.product_id) then
    (Except.ok pu, { st with purchases := st.purchases ++ [pu], nextPurchaseId := st.nextPurchaseId + 1 })
  else
    (Except.error ApiError.integrityError, st)

/-- Deletion of a product at the persistence layer (models.py): the
Product relationships to Sale and Purchase carry the setting
cascade of all and delete-orphan, so deleting a product through the
session also deletes every sale and purchase row referencing it. -/
def delete_product (st : DB) (pid : Nat) : DB :=
  { st with
    products := st.products.filter (fun p => !(p.id == pid)),
    sales := st.sales.filter (fun s => !(s.product_id == pid)),
    purchases := st.purchases.filter (fun pu => !(pu.product_id == pid)) }

/-- Referential integrity of the foreign keys from sales and purchases
into products: every ledger row references an existing product. -/
def FKok (st : DB) : Prop :=
  (∀ s ∈ st.sales, ∃ p ∈ st.products, p.id = s.product_id) ∧
  (∀ pu ∈ st.purchases, ∃ p ∈ st.products, p.id = pu.product_id)

/-- What the name SessionLocal is bound to in models.py: a value that is
either a session factory (a sessionmaker, callable, yielding a fresh
session per call) or a single already-constructed Session instance
(not callable). -/
inductive SessionLocalKind where
  | sessionFactory
  | sessionInstance
  deriving Repr, DecidableEq

/-- models.py line 13 binds SessionLocal to Session(autocommit=False,
autoflush=False, bind=engine): this constructs one Session instance
when the module loads; it is not a sessionmaker. -/
def SessionLocal : SessionLocalKind :=
  SessionLocalKind.sessionInstance

/-- Semantics of the Python call SessionLocal() performed by get_db:
calling a sessionmaker returns a fresh session; a Session instance
does not define call and the attempt raises TypeError. -/
def callSessionLocal : SessionLocalKind → Except ApiError Unit
  | SessionLocalKind.sessionFactory => Except.ok ()
  | SessionLocalKind.sessionInstance => Except.error ApiError.typeError

/-- The get_db dependency (main.py, get_db): db = SessionLocal() is the
acquisition step; the try and finally around the yield only run if the
acquisition itself succeeds. -/
def get_db : Except ApiError Unit :=
  callSessionLocal SessionLocal

/-- Sum of the sale quantities recorded for a given product id. -/
def soldTotal (st : DB) (pid : Nat) : Int :=
  ((st.sales.filter (fun s => s.product_id == pid)).map (fun s => s.quantity)).sum

/-- Sum of the purchase quantities recorded for a given product id. -/
def purchasedTotal (st : DB) (pid : Nat) : Int :=
  ((st.purchases.filter (fun pu => pu.product_id == pid)).map (fun pu => pu.quantity)).sum

/-- Revenue of a product: the sum over its sales of quantity times the
product selling price (the sale rows store no price of their own). -/
def amountTotal (st : DB) (p : Product) : Rat :=
  ((st.sales.filter (fun s => s.product_id == p.id)).map
    (fun s => (s.quantity : Rat) * p.selling_price)).sum

/-- The rows one product contributes to the left outer join of
products with sales on Product.id == Sale.product_id used by the
sales-per-product query (main.py, sales_per_product): one row per
matching sale, and a single all-null sale slot when no sale matches. -/
def joinBlock (sales : List Sale) (p : Product) : List (Product × Option Sale) :=
  let ms := sales.filter (fun s => s.product_id == p.id)
  if ms.isEmpty then [(p, none)] else ms.map (fun s => (p, some s))

/-- The full left outer join: the blocks of all products in order. -/
def leftJoinSales (products : List Product) (sales : List Sale) :
    List (Product × Option Sale) :=
  products.flatMap (joinBlock sales)

/-- The GET /dashboard/sales-per-product query body (main.py,
sales_per_product): the join rows are grouped by Product.id (one group
per distinct id, in order of appearance), each group selecting the id,
the product name, sum of Sale.quantity and sum of
Sale.quantity * Product.selling_price.  SQL sum skips the null slot of
a saleless product and coalesce turns the resulting null into 0; both
are the empty Lean sum, 0. -/
def salesPerProductRows (products : List Product) (sales : List Sale) :
    List SalesPerProduct :=
  let joined := leftJoinSales products sales
  ((joined.map (fun r => r.1.id)).dedup).filterMap (fun pid =>
    (joined.find? (fun r => r.1.id == pid)).map (fun r0 =>
      let grp := joined.filter (fun r => r.1.id == pid)
      { product_id := pid
        product_name := r0.1.name
        total_quantity_sold := (grp.filterMap (fun r => r.2.map (fun s => s.quantity))).sum
        total_sales_amount :=
          (grp.filterMap (fun r => r.2.map (fun s => (s.quantity : Rat) * r.1.selling_price))).sum }))

/-- GET /dashboard/sales-per-product (main.py, sales_per_product),
reading the current products and sales tables. -/
def sales_per_product (st : DB) : List SalesPerProduct × DB :=
  (salesPerProductRows st.products st.sales, st)

/-- A grouped ledger subquery of the stock-per-product query (main.py,
stock_per_product, sales_sub and purchase_sub): the (product_id,
quantity) rows grouped by product_id, one output row per distinct
product_id carrying the summed quantity. -/
def subSums (pairs : List (Nat × Int)) : List (Nat × Int) :=
  ((pairs.map Prod.fst).dedup).map (fun pid =>
    (pid, ((pairs.filter (fun r => r.1 == pid)).map Prod.snd).sum))

/-- The GET /dashboard/stock-per-product query body (main.py,
stock_per_product): products is left-outer-joined with the two grouped
subqueries on the product id; a grouped subquery has at most one row
per id, so each join is the find? lookup, null when absent, and
remaining_stock = coalesce(purchased, 0) - coalesce(sold, 0). -/
def stockPerProductRows (products : List Product) (sales : List Sale)
    (purchases : List Purchase) : List StockPerProduct :=
  let sales_sub := subSums (sales.map (fun s => (s.product_id, s.quantity)))
  let purchase_sub := subSums (purchases.map (fun pu => (pu.product_id, pu.quantity)))
  products.map (fun p =>
    { product_id := p.id
      product_name := p.name
      remaining_stock :=
        ((purchase_sub.find? (fun g => g.1 == p.id)).map Prod.snd).getD 0 -
        ((sales_sub.find? (fun g => g.1 == p.id)).map Prod.snd).getD 0 })

/-- GET /dashboard/stock-per-product (main.py, stock_per_product),
reading the current products, sales and purchases tables. -/
def stock_per_product (st : DB) : List StockPerProduct × DB :=
  (stockPerProductRows st.products st.sales st.purchases, st)

/-- An empty database, counters at their initial value. -/
def exSt0 : DB :=
  { users := [], products := [], sales := [], purchases := [],
    nextUserId := 1, nextProductId := 1, nextSaleId := 1, nextPurchaseId := 1 }

/-- A database holding one product and no ledger rows. -/
def exSt1 : DB :=
  { users := [], products := [⟨1, "widget", 5, 10⟩], sales := [], purchases := [],
    nextUserId := 1, nextProductId := 2, nextSaleId := 1, nextPurchaseId := 1 }

/-- A database holding one registered user. -/
def exStUser : DB :=
  { users := [⟨1, "ann@example.com", "Ann", "hashed"⟩], products := [],
    sales := [], purchases := [],
    nextUserId := 2, nextProductId := 1, nextSaleId := 1, nextPurchaseId := 1 }

/-- A database with two products and ledger rows referencing both. -/
def exStC7 : DB :=
  { users := [],
    products := [⟨1, "widget", 5, 10⟩, ⟨2, "gadget", 1, 2⟩],
    sales := [⟨1, 1, 4, 0⟩, ⟨2, 2, 1, 0⟩],
    purchases := [⟨1, 1, 3, 0⟩],
    nextUserId := 1, nextProductId := 3, nextSaleId := 3, nextPurchaseId := 2 }

/-- A database with one product, id 1 and selling price 10, and two of
its sales, quantities 2 and 3. -/
def exStC2 : DB :=
  { users := [], products := [⟨1, "widget", 5, 10⟩],
    sales := [⟨1, 1, 2, 0⟩, ⟨2, 1, 3, 1⟩], purchases := [],
    nextUserId := 1, nextProductId := 2, nextSaleId := 3, nextPurchaseId := 1 }

/-- C9: create_product accepts every well-typed request and persists the
product with exactly the submitted name, buying_price and
selling_price; nothing constrains the sign of either price, so a
negative price is stored unchanged and never rejected. -/
theorem create_product_stores_submitted (st : DB) (req : ProductPostMap) :
    ∃ p : Product,
      create_product st req =
        (Except.ok p,
         { st with products := st.products ++ [p],
                   nextProductId := st.nextProductId + 1 }) ∧
      p.name = req.name ∧ p.buying_price = req.buying_price ∧
      p.selling_price = req.selling_price :=
  ⟨_, rfl, rfl, rfl, rfl⟩

/-- C10: the list endpoints and the two dashboard aggregations perform
no writes: the whole database state after any of them equals the state
before. -/
theorem read_endpoints_no_writes (st : DB) :
    (get_products st).2 = st ∧ (get_sales st).2 = st ∧
    (get_purchases st).2 = st ∧ (sales_per_product st).2 = st ∧
    (stock_per_product st).2 = st :=
  ⟨rfl, rfl, rfl, rfl, rfl⟩

/-- C8: the claim fails on the code as a bug.  models.py binds
SessionLocal to a Session instance rather than a sessionmaker, so the
acquisition step db = SessionLocal() in get_db raises TypeError: no API
call ever acquires a per-call session at all, while the intended
sessionmaker pattern (and the try with finally close around the yield)
shows the spec describes the intent. -/
theorem get_db_raises_typeError : get_db = Except.error ApiError.typeError :=
  rfl

/-- C6: registering an email that an existing user already holds fails
with Conflict (400) and leaves the whole database, the existing user
record included, unchanged: no user is created. -/
theorem register_duplicate_email_conflict (hashPw mkToken : String → String)
    (st : DB) (req : UserPostRegister)
    (h : ∃ u ∈ st.users, u.email = req.email) :
    register_user hashPw mkToken st req = (Except.error ApiError.conflict, st) := by
  obtain ⟨u, hu, he⟩ := h
  cases hfind : st.users.find? (fun v => v.email == req.email) with
  | none =>
    exact absurd (by simpa using List.find?_eq_none.mp hfind u hu) (by simp [he])
  | some v =>
    simp [register_user, hfind]

/-- Witness for C6 at a concrete database holding the email already. -/
theorem register_duplicate_email_conflict_witness :
    (∃ u ∈ exStUser.users, u.email = "ann@example.com") ∧
    register_user id id exStUser ⟨"ann@example.com", "Ann", "pw"⟩ =
      (Except.error ApiError.conflict, exStUser) :=
  ⟨by decide,
   register_duplicate_email_conflict id id exStUser ⟨"ann@example.com", "Ann", "pw"⟩
     (by decide)⟩

/-- C3 counterexample: quantity 0 (and -5) is accepted, not rejected
with ValidationError, and the row is persisted: neither handler nor
schema validates the quantity. -/
theorem create_sale_nonpositive_accepted :
    (create_sale exSt1 ⟨1, 0⟩ 7).1 = Except.ok ⟨1, 1, 0, 7⟩ ∧
    (create_sale exSt1 ⟨1, 0⟩ 7).2.sales = [⟨1, 1, 0, 7⟩] ∧
    (create_purchase exSt1 ⟨1, -5⟩ 7).1 = Except.ok ⟨1, 1, -5, 7⟩ ∧
    (create_purchase exSt1 ⟨1, -5⟩ 7).2.purchases = [⟨1, 1, -5, 7⟩] :=
  ⟨rfl, rfl, rfl, rfl⟩

/-- C3 amended: record_sale and record_purchase perform no quantity
validation at all: any integer quantity, a quantity less than or equal
to 0 included, is accepted whenever the product exists, and the row is
persisted with exactly the submitted quantity. -/
theorem create_sale_purchase_no_quantity_validation (st : DB)
    (req : SalePostMap) (now : Nat)
    (hp : ∃ p ∈ st.products, p.id = req.product_id) :
    (∃ s : Sale,
       create_sale st req now =
         (Except.ok s,
          { st with sales := st.sales ++ [s], nextSaleId := st.nextSaleId + 1 }) ∧
       s.quantity = req.quantity) ∧
    (∃ pu : Purchase,
       create_purchase st req now =
         (Except.ok pu,
          { st with purchases := st.purchases ++ [pu],
                    nextPurchaseId := st.nextPurchaseId + 1 }) ∧
       pu.quantity = req.quantity) := by
  obtain ⟨p, hpm, hid⟩ := hp
  have hany : st.products.any (fun q => q.id == req.product_id) = true := by
    rw [List.any_eq_true]
    exact ⟨p, hpm, by simp [hid]⟩
  exact ⟨⟨⟨st.nextSaleId, req.product_id, req.quantity, now⟩,
          by simp [create_sale, hany], rfl⟩,
         ⟨⟨st.nextPurchaseId, req.product_id, req.quantity, now⟩,
          by simp [create_purchase, hany], rfl⟩⟩

/-- Witness for the amended C3 at a concrete negative quantity. -/
theorem create_sale_purchase_no_quantity_validation_witness :
    (∃ p ∈ exSt1.products, p.id = (⟨1, -3⟩ : SalePostMap).product_id) ∧
    (∃ s : Sale,
       create_sale exSt1 ⟨1, -3⟩ 5 =
         (Except.ok s,
          { exSt1 with sales := exSt1.sales ++ [s],
                       nextSaleId := exSt1.nextSaleId + 1 }) ∧
       s.quantity = (⟨1, -3⟩ : SalePostMap).quantity) :=
  ⟨by decide,
   (create_sale_purchase_no_quantity_validation exSt1 ⟨1, -3⟩ 5 (by decide)).1⟩

/-- C4 counterexample: recording a sale against an unknown product
fails with the foreign-key IntegrityError (a 500), not with NotFound
(404): the handler never looks the product up. -/
theorem create_sale_unknown_product_not_notFound :
    create_sale exSt0 ⟨1, 5⟩ 3 = (Except.error ApiError.integrityError, exSt0) ∧
    ApiError.integrityError ≠ ApiError.notFound :=
  ⟨rfl, by decide⟩

/-- C4 amended: for every quantity and every product_id referencing no
existing product, create_sale fails — through the foreign-key
constraint at commit, surfaced as an IntegrityError (500-equivalent),
not as NotFound — and persists no sale row: the state is unchanged. -/
theorem create_sale_unknown_product_integrityError (st : DB)
    (req : SalePostMap) (now : Nat)
    (h : ∀ p ∈ st.products, p.id ≠ req.product_id) :
    create_sale st req now = (Except.error ApiError.integrityError, st) := by
  have hany : st.products.any (fun q => q.id == req.product_id) = false := by
    rw [List.any_eq_false]
    intro p hp
    simp [h p hp]
  simp [create_sale, hany]

/-- Witness for the amended C4 on the empty database. -/
theorem create_sale_unknown_product_integrityError_witness :
    (∀ p ∈ exSt0.products, p.id ≠ (⟨1, 5⟩ : SalePostMap).product_id) ∧
    create_sale exSt0 ⟨1, 5⟩ 3 = (Except.error ApiError.integrityError, exSt0) :=
  ⟨by decide,
   create_sale_unknown_product_integrityError exSt0 ⟨1, 5⟩ 3 (by decide)⟩

/-- C5: on a valid request (existing product, positive quantity) the
sale is accepted, and listing the sales afterwards yields exactly the
previous list plus one new entry, absent before the call, carrying the
submitted product_id and quantity and a created_at at or after the
call time. -/
theorem create_sale_then_list (st : DB) (req : SalePostMap) (now : Nat)
    (hp : ∃ p ∈ st.products, p.id = req.product_id)
    (_hq : 0 < req.quantity)
    (hfresh : ∀ s ∈ st.sales, s.id < st.nextSaleId) :
    ∃ sale st',
      create_sale st req now = (Except.ok sale, st') ∧
      (get_sales st').1 = (get_sales st).1 ++ [sale] ∧
      sale ∉ (get_sales st).1 ∧
      sale.product_id = req.product_id ∧ sale.quantity = req.quantity ∧
      now ≤ sale.created_at := by
  obtain ⟨p, hpm, hid⟩ := hp
  have hany : st.products.any (fun q => q.id == req.product_id) = true := by
    rw [List.any_eq_true]
    exact ⟨p, hpm, by simp [hid]⟩
  refine ⟨⟨st.nextSaleId, req.product_id, req.quantity, now⟩,
          { st with sales := st.sales ++ [⟨st.nextSaleId, req.product_id, req.quantity, now⟩],
                    nextSaleId := st.nextSaleId + 1 },
          by simp [create_sale, hany], rfl, ?_, rfl, rfl, Nat.le_refl _⟩
  intro hmem
  exact absurd (hfresh _ hmem) (by simp)

/-- Witness for C5 at a concrete valid request. -/
theorem create_sale_then_list_witness :
    (∃ p ∈ exSt1.products, p.id = (⟨1, 2⟩ : SalePostMap).product_id) ∧
    (0 : Int) < 2 ∧
    (∃ sale st',
       create_sale exSt1 ⟨1, 2⟩ 9 = (Except.ok sale, st') ∧
       (get_sales st').1 = (get_sales exSt1).1 ++ [sale] ∧
       sale ∉ (get_sales exSt1).1 ∧
       sale.product_id = (⟨1, 2⟩ : SalePostMap).product_id ∧
       sale.quantity = (⟨1, 2⟩ : SalePostMap).quantity ∧
       9 ≤ sale.created_at) :=
  ⟨by decide, by decide,
   create_sale_then_list exSt1 ⟨1, 2⟩ 9 (by decide) (by decide) (by decide)⟩

/-- C7: deleting a product deletes every sale and every purchase that
references it, and when the foreign keys held before the deletion no
orphan remains: every surviving ledger row still references an
existing product. -/
theorem delete_product_cascade (st : DB) (pid : Nat) (hfk : FKok st) :
    (∀ s ∈ (delete_product st pid).sales, s.product_id ≠ pid) ∧
    (∀ pu ∈ (delete_product st pid).purchases, pu.product_id ≠ pid) ∧
    FKok (delete_product st pid) := by
  obtain ⟨hs, hp⟩ := hfk
  refine ⟨?_, ?_, ?_, ?_⟩
  · intro s hsm
    have := List.mem_filter.mp hsm
    simpa using this.2
  · intro pu hpm
    have := List.mem_filter.mp hpm
    simpa using this.2
  · intro s hsm
    obtain ⟨hsm0, hsne⟩ := List.mem_filter.mp hsm
    obtain ⟨p, hpm0, hpe⟩ := hs s hsm0
    exact ⟨p, List.mem_filter.mpr ⟨hpm0, by simp_all⟩, hpe⟩
  · intro pu hpm
    obtain ⟨hpm0, hpne⟩ := List.mem_filter.mp hpm
    obtain ⟨p, hpm1, hpe⟩ := hp pu hpm0
    exact ⟨p, List.mem_filter.mpr ⟨hpm1, by simp_all⟩, hpe⟩

/-- Witness for C7 at a concrete two-product database. -/
theorem delete_product_cascade_witness :
    FKok exStC7 ∧
    (∀ s ∈ (delete_product exStC7 1).sales, s.product_id ≠ 1) ∧
    (∀ pu ∈ (delete_product exStC7 1).purchases, pu.product_id ≠ 1) ∧
    FKok (delete_product exStC7 1) :=
  ⟨⟨by decide, by decide⟩, delete_product_cascade exStC7 1 ⟨by decide, by decide⟩⟩

/-- Looking a key up in a keyed map evaluates the tabulated function at
the key found. -/
theorem find_map_key (keys : List Nat) (f : Nat → Int) (pid : Nat) :
    ((keys.map (fun k => (k, f k))).find? (fun g => g.1 == pid)) =
      ((keys.find? (fun k => k == pid)).map (fun k => (k, f k))) := by
  induction keys with
  | nil => rfl
  | cons k ks ih =>
    by_cases h : k = pid
    · simp [h]
    · simp only [List.map_cons]
      rw [List.find?_cons_of_neg, List.find?_cons_of_neg, ih]
      · simp [h]
      · simp [h]

/-- Searching a list of keys for a given key finds that key exactly
when it is a member. -/
theorem find_key_mem (keys : List Nat) (pid : Nat) :
    keys.find? (fun k => k == pid) = if pid ∈ keys then some pid else none := by
  induction keys with
  | nil => rfl
  | cons k ks ih =>
    by_cases h : k = pid
    · simp [h]
    · rw [List.find?_cons_of_neg _ (by simp [h]), ih]
      simp [Ne.symm h]

/-- The coalesced lookup into a grouped subquery equals the plain sum
of the quantities carrying that key, 0 when there are none. -/
theorem subSums_lookup (pairs : List (Nat × Int)) (pid : Nat) :
    (((subSums pairs).find? (fun g => g.1 == pid)).map Prod.snd).getD 0 =
      ((pairs.filter (fun r => r.1 == pid)).map Prod.snd).sum := by
  unfold subSums
  rw [find_map_key, find_key_mem]
  by_cases h : pid ∈ (pairs.map Prod.fst).dedup
  · simp [h]
  · have h2 : pid ∉ pairs.map Prod.fst := fun hm => h (List.mem_dedup.mpr hm)
    have hfil : pairs.filter (fun r => r.1 == pid) = [] := by
      rw [List.filter_eq_nil_iff]
      intro a ha hpa
      exact h2 (by
        have : a.1 = pid := by simpa using hpa
        rw [← this]
        exact List.mem_map_of_mem Prod.fst ha)
    simp [h, hfil]

/-- The grouped-subquery lookup, with the rows projected to key and
quantity, is the plain filtered sum over the original rows. -/
theorem subSums_lookup_proj {α : Type} (rows : List α) (key : α → Nat)
    (qty : α → Int) (pid : Nat) :
    (((subSums (rows.map (fun r => (key r, qty r)))).find?
        (fun g => g.1 == pid)).map Prod.snd).getD 0 =
      ((rows.filter (fun r => key r == pid)).map qty).sum := by
  rw [subSums_lookup, List.filter_map]
  simp [Function.comp_def]

/-- C1: stock-per-product has one row per product of the catalog, in
catalog order, products with no purchases or no sales included; its
remaining_stock is the summed purchased quantity minus the summed sold
quantity of that product (an empty sum being 0, so a product with no
activity appears with remaining_stock 0, and the difference may be
negative). -/
theorem stock_per_product_rows (st : DB) :
    (stock_per_product st).1 =
      st.products.map (fun p =>
        { product_id := p.id, product_name := p.name,
          remaining_stock := purchasedTotal st p.id - soldTotal st p.id }) := by
  unfold stock_per_product stockPerProductRows purchasedTotal soldTotal
  simp only []
  apply List.map_congr_left
  intro p _
  rw [StockPerProduct.mk.injEq]
  refine ⟨rfl, rfl, ?_⟩
  rw [subSums_lookup_proj st.sales (fun s => s.product_id) (fun s => s.quantity),
      subSums_lookup_proj st.purchases (fun pu => pu.product_id) (fun pu => pu.quantity)]

/-- Every join row a product contributes carries that product. -/
theorem joinBlock_fst {sales : List Sale} {p : Product}
    {r : Product × Option Sale} (h : r ∈ joinBlock sales p) : r.1 = p := by
  simp only [joinBlock] at h
  cases he : (sales.filter (fun s => s.product_id == p.id)).isEmpty
  · rw [if_neg (by simp [he])] at h
    obtain ⟨s, _, rfl⟩ := List.mem_map.mp h
    rfl
  · rw [if_pos he] at h
    rw [List.mem_singleton.mp h]

/-- A product contributes at least one row to the join: the all-null
slot when it has no sale. -/
theorem joinBlock_ne_nil (sales : List Sale) (p : Product) :
    joinBlock sales p ≠ [] := by
  simp only [joinBlock]
  cases he : (sales.filter (fun s => s.product_id == p.id)).isEmpty
  · rw [if_neg (by simp [he]), Ne, List.map_eq_nil_iff]
    intro hnil
    rw [hnil] at he
    simp at he
  · simp

/-- Every join row of a block matches the grouping key of its product. -/
theorem joinBlock_pred {sales : List Sale} {p : Product}
    {r : Product × Option Sale} (h : r ∈ joinBlock sales p) :
    (r.1.id == p.id) = true := by
  simp [joinBlock_fst h]

/-- Filtering a block at the key of its own product keeps everything. -/
theorem joinBlock_filter_self (sales : List Sale) (p : Product) :
    (joinBlock sales p).filter (fun r => r.1.id == p.id) = joinBlock sales p :=
  List.filter_eq_self.mpr fun _ hr => joinBlock_pred hr

/-- Filtering a block at a different key drops everything. -/
theorem joinBlock_filter_ne {sales : List Sale} {p : Product} {pid : Nat}
    (h : p.id ≠ pid) :
    (joinBlock sales p).filter (fun r => r.1.id == pid) = [] :=
  List.filter_eq_nil_iff.mpr fun _ hr => by simp [joinBlock_fst hr, h]

/-- Searching a block at the key of its own product finds a row of that
product. -/
theorem joinBlock_find_self (sales : List Sale) (p : Product) :
    ∃ r, (joinBlock sales p).find? (fun r => r.1.id == p.id) = some r ∧
      r.1 = p := by
  obtain ⟨r₁, hr₁⟩ := List.exists_mem_of_ne_nil _ (joinBlock_ne_nil sales p)
  have hsome : ((joinBlock sales p).find? (fun r => r.1.id == p.id)).isSome := by
    rw [List.find?_isSome]
    exact ⟨r₁, hr₁, joinBlock_pred hr₁⟩
  obtain ⟨r, hr⟩ := Option.isSome_iff_exists.mp hsome
  exact ⟨r, hr, joinBlock_fst (List.mem_of_find?_eq_some hr)⟩

/-- Searching a block at a different key finds nothing. -/
theorem joinBlock_find_ne {sales : List Sale} {p : Product} {pid : Nat}
    (h : p.id ≠ pid) :
    (joinBlock sales p).find? (fun r => r.1.id == pid) = none :=
  List.find?_eq_none.mpr fun _ hr => by simp [joinBlock_fst hr, h]

/-- A search over an appended list skips a first part with no match. -/
theorem find?_append_of_none {α : Type} {p : α → Bool} {l₁ : List α}
    (l₂ : List α) (h : l₁.find? p = none) :
    (l₁ ++ l₂).find? p = l₂.find? p := by
  induction l₁ with
  | nil => rfl
  | cons a l ih =>
    have ha : ¬ p a := by
      simpa using List.find?_eq_none.mp h a (List.mem_cons_self a l)
    rw [List.cons_append, List.find?_cons_of_neg _ ha]
    exact ih (List.find?_eq_none.mpr fun x hx =>
      List.find?_eq_none.mp h x (List.mem_cons_of_mem a hx))

/-- A search over an appended list settles in a first part that has a
match. -/
theorem find?_append_of_some {α : Type} {p : α → Bool} {l₁ : List α}
    (l₂ : List α) {a : α} (h : l₁.find? p = some a) :
    (l₁ ++ l₂).find? p = some a := by
  induction l₁ with
  | nil => simp at h
  | cons b l ih =>
    cases hb : p b
    · rw [List.find?_cons_of_neg _ (by simp [hb])] at h
      rw [List.cons_append, List.find?_cons_of_neg _ (by simp [hb])]
      exact ih h
    · rw [List.find?_cons_of_pos _ hb] at h
      rw [List.cons_append, List.find?_cons_of_pos _ hb]
      exact h

/-- Removing duplicates from a nonempty constant run followed by a list
free of that constant keeps one copy of the constant in front. -/
theorem dedup_const_append (a : Nat) (rest : List Nat) (hna : a ∉ rest) :
    ∀ l : List Nat, l ≠ [] → (∀ x ∈ l, x = a) →
      (l ++ rest).dedup = a :: rest.dedup := by
  intro l
  induction l with
  | nil => intro h; exact absurd rfl h
  | cons x xs ih =>
    intro _ hconst
    have hxa : a = x := (hconst x (List.mem_cons_self x xs)).symm
    subst hxa
    by_cases hxs : xs = []
    · subst hxs
      exact List.dedup_cons_of_not_mem hna
    · have hmem : a ∈ xs ++ rest := by
        obtain ⟨y, ys, rfl⟩ := List.exists_cons_of_ne_nil hxs
        have hy : y = a := hconst y (List.mem_cons_of_mem a (List.mem_cons_self y ys))
        simp [hy]
      rw [List.cons_append, List.dedup_cons_of_mem hmem]
      exact ih hxs fun x hx => hconst x (List.mem_cons_of_mem a hx)

/-- A filterMap that wraps every element in some is a map. -/
theorem filterMap_some_fn {α β : Type} (f : α → β) (l : List α) :
    l.filterMap (fun a => some (f a)) = l.map f := by
  induction l with
  | nil => rfl
  | cons a l ih =>
    rw [List.filterMap_cons]
    simp [ih]

/-- The sale quantities a block feeds the group sum are exactly the
quantities of the sales of its product (the null slot feeds nothing). -/
theorem joinBlock_sum_qty (sales : List Sale) (p : Product) :
    ((joinBlock sales p).filterMap (fun r => r.2.map (fun s => s.quantity))).sum =
      ((sales.filter (fun s => s.product_id == p.id)).map (fun s => s.quantity)).sum := by
  unfold joinBlock
  cases he : (sales.filter (fun s => s.product_id == p.id)).isEmpty
  · simp only [he, Bool.false_eq_true, if_false]
    rw [List.filterMap_map]
    simp only [Function.comp_def, Option.map_some']
    rw [filterMap_some_fn]
  · have hnil : sales.filter (fun s => s.product_id == p.id) = [] :=
      List.isEmpty_iff.mp he
    simp [he, hnil]

/-- The sale amounts a block feeds the group sum are exactly quantity
times the selling price of its product, over the sales of that product. -/
theorem joinBlock_sum_amt (sales : List Sale) (p : Product) :
    ((joinBlock sales p).filterMap
        (fun r => r.2.map (fun s => (s.quantity : Rat) * r.1.selling_price))).sum =
      ((sales.filter (fun s => s.product_id == p.id)).map
        (fun s => (s.quantity : Rat) * p.selling_price)).sum := by
  unfold joinBlock
  cases he : (sales.filter (fun s => s.product_id == p.id)).isEmpty
  · simp only [he, Bool.false_eq_true, if_false]
    rw [List.filterMap_map]
    simp only [Function.comp_def, Option.map_some']
    rw [filterMap_some_fn]
  · have hnil : sales.filter (fun s => s.product_id == p.id) = [] :=
      List.isEmpty_iff.mp he
    simp [he, hnil]

/-- The grouped left join evaluates, product by product in catalog
order, to the per-product quantity and amount sums, provided the
product ids are pairwise distinct (they are a primary key). -/
theorem salesPerProductRows_eq (sales : List Sale) :
    ∀ products : List Product, products.Pairwise (fun a b => a.id ≠ b.id) →
      salesPerProductRows products sales =
        products.map (fun p =>
          { product_id := p.id
            product_name := p.name
            total_quantity_sold :=
              ((sales.filter (fun s => s.product_id == p.id)).map
                (fun s => s.quantity)).sum
            total_sales_amount :=
              ((sales.filter (fun s => s.product_id == p.id)).map
                (fun s => (s.quantity : Rat) * p.selling_price)).sum }) := by
  intro products
  induction products with
  | nil => intro _; rfl
  | cons p ps ih =>
    intro hpw
    rw [List.pairwise_cons] at hpw
    obtain ⟨hpne, hps⟩ := hpw
    have hrest_fst : ∀ r ∈ leftJoinSales ps sales, r.1 ∈ ps := by
      intro r hr
      obtain ⟨q, hq, hrq⟩ := List.mem_flatMap.mp hr
      rw [joinBlock_fst hrq]
      exact hq
    have hjoin : leftJoinSales (p :: ps) sales =
        joinBlock sales p ++ leftJoinSales ps sales := by
      simp [leftJoinSales, List.flatMap_cons]
    have hna : p.id ∉ (leftJoinSales ps sales).map (fun r => r.1.id) := by
      intro hm
      obtain ⟨r, hr, hid⟩ := List.mem_map.mp hm
      exact hpne r.1 (hrest_fst r hr) hid.symm
    have hkeys : ((joinBlock sales p ++ leftJoinSales ps sales).map
          (fun r => r.1.id)).dedup =
        p.id :: ((leftJoinSales ps sales).map (fun r => r.1.id)).dedup := by
      rw [List.map_append]
      refine dedup_const_append p.id _ hna _ ?_ ?_
      · rw [Ne, List.map_eq_nil_iff]
        exact joinBlock_ne_nil sales p
      · intro x hx
        obtain ⟨r, hr, rfl⟩ := List.mem_map.mp hx
        rw [joinBlock_fst hr]
    obtain ⟨r0, hr0, hr0fst⟩ := joinBlock_find_self sales p
    have hfind0 : (joinBlock sales p ++ leftJoinSales ps sales).find?
        (fun r => r.1.id == p.id) = some r0 :=
      find?_append_of_some _ hr0
    have hfilter0 : (joinBlock sales p ++ leftJoinSales ps sales).filter
        (fun r => r.1.id == p.id) = joinBlock sales p := by
      rw [List.filter_append, joinBlock_filter_self]
      have hnil : (leftJoinSales ps sales).filter (fun r => r.1.id == p.id) = [] := by
        rw [List.filter_eq_nil_iff]
        intro r hr hc
        exact hpne r.1 (hrest_fst r hr) (eq_of_beq hc).symm
      rw [hnil, List.append_nil]
    simp only [salesPerProductRows]
    simp only [hjoin]
    rw [hkeys, List.filterMap_cons]
    simp only [hfind0, Option.map_some']
    rw [hfilter0, joinBlock_sum_qty, joinBlock_sum_amt, hr0fst]
    rw [List.map_cons]
    refine congrArg _ ?_
    refine Eq.trans (List.filterMap_congr ?_) (ih hps)
    intro pid hpid
    obtain ⟨r, hr, hrid⟩ := List.mem_map.mp (List.mem_dedup.mp hpid)
    have hne : p.id ≠ pid := by
      rw [← hrid]
      exact hpne r.1 (hrest_fst r hr)
    have hf : (joinBlock sales p ++ leftJoinSales ps sales).find?
        (fun r => r.1.id == pid) = (leftJoinSales ps sales).find? (fun r => r.1.id == pid) :=
      find?_append_of_none _ (joinBlock_find_ne hne)
    have hfl : (joinBlock sales p ++ leftJoinSales ps sales).filter
        (fun r => r.1.id == pid) = (leftJoinSales ps sales).filter (fun r => r.1.id == pid) := by
      rw [List.filter_append, joinBlock_filter_ne hne, List.nil_append]
    rw [hf, hfl]

/-- C2: sales-per-product has one row per product of the catalog, in
catalog order, products with zero sales included; total_quantity_sold
is the summed sale quantity of the product and total_sales_amount the
sum over its sales of quantity times the product selling price, both
the number 0 (not null or absent) for a product with no sales. -/
theorem sales_per_product_rows (st : DB)
    (hids : st.products.Pairwise (fun a b => a.id ≠ b.id)) :
    (sales_per_product st).1 =
      st.products.map (fun p =>
        { product_id := p.id, product_name := p.name,
          total_quantity_sold := soldTotal st p.id,
          total_sales_amount := amountTotal st p }) := by
  unfold sales_per_product soldTotal amountTotal
  exact salesPerProductRows_eq st.sales st.products hids

/-- Witness for C2: one product at selling price 10 with sales of
quantities 2 and 3 yields total_quantity_sold 5 and total_sales_amount
50, in the single row of the result. -/
theorem sales_per_product_rows_witness :
    exStC2.products.Pairwise (fun a b => a.id ≠ b.id) ∧
    (sales_per_product exStC2).1 =
      [{ product_id := 1, product_name := "widget",
         total_quantity_sold := 5, total_sales_amount := 50 }] :=
  ⟨by decide, by
    rw [sales_per_product_rows exStC2 (by decide)]
    simp only [exStC2, soldTotal, amountTotal]
    norm_num⟩
